import Mathlib

/-!
Shallow embedding of `nova/scheduler/filter_scheduler.py` (the OpenStack
Nova `FilterScheduler`).  Host states are kept in a `Store` (a list of
`HostState`) and hosts are referenced by their index in the store, which
models Python's reference semantics: the loop mutates the chosen host in
place and later rounds observe the mutation.  The external collaborators
(filter chain, weigher chain, configuration value, random source, host
sequence) are fields of a `SchedEnv` record, matching §6 of the design:
the core only consumes their results.  Exceptions (`IndexError` from
`random.choice` on an empty slice, `NoValidHost` from the orchestrator)
are modelled explicitly.
-/

/-- One host snapshot: identity (`host`, `nodename`), opaque scheduling
`limits`, the `updated` last-refreshed marker (`none` = invalidated) and
the available `capacity` debited by consumption. -/
structure HostState where
  host : String
  nodename : String
  limits : Int
  updated : Option Nat
  capacity : Int
deriving Repr, DecidableEq

instance : Inhabited HostState := ⟨⟨"", "", 0, none, 0⟩⟩

/-- The immutable batch descriptor (`spec_obj`): number of requested
instances, the resource footprint of one instance, and the group-affinity
data carried through `filter_properties`. -/
structure RequestSpec where
  num_instances : Nat
  footprint : Int
  group_updated : Bool
  group_hosts : List String
deriving Repr, DecidableEq

/-- Output entity of `select_destinations`: `dict(host=..., nodename=...,
limits=...)`. -/
structure Destination where
  host : String
  nodename : String
  limits : Int
deriving Repr, DecidableEq

/-- The exceptions the embedded code can raise: `IndexError` from
`random.choice` on an empty sequence, and `exception.NoValidHost`. -/
inductive PyErr where
  | indexError : PyErr
  | noValidHost : String → PyErr
deriving Repr, DecidableEq

/-- The mutable host-state pool; indices into it play the role of object
references. -/
abbrev Store := List HostState

/-- In-place mutation of the element at index `i` (a no-op when `i` is out
of range), the embedding of mutating one Python object in the pool. -/
def listModify : List HostState → Nat → (HostState → HostState) → List HostState
  | [], _, _ => []
  | h :: t, 0, f => f h :: t
  | h :: t, n + 1, f => h :: listModify t n f

/-- Python `set.add` on the `group_hosts` set, modelled on a
duplicate-free list. -/
def insertStr (x : String) (g : List String) : List String :=
  if x ∈ g then g else g ++ [x]

/-- `random.choice(l)`: returns an element of `l` chosen by the random
source (here the pre-drawn value `r`, reduced modulo the length), and
fails with `IndexError` (`none`) on an empty sequence, exactly as CPython
does (`r % 0 = r` in Lean, and `get?` is then out of range). -/
def pychoice (r : Nat) (l : List Nat) : Option Nat :=
  l.get? (r % l.length)

/-- The subset-size clamp of `_schedule` (lines 158-163): first
`if size > len(weighed): size = len(weighed)`, then
`if size < 1: size = 1`; the configured value is an integer option and
may be zero or negative. -/
def effectiveSubsetSize (configured : Int) (numWeighed : Nat) : Nat :=
  let s1 : Int := if configured > (numWeighed : Int) then (numWeighed : Int) else configured
  let s2 : Int := if s1 < 1 then 1 else s1
  s2.toNat

/-- Modelled from the spec: `HostState.consume_from_request` is not part
of the source fragment (it lives in the external host-state provider);
§4.3 of the spec describes it as a deterministic mutation "reducing its
available capacity by the resource footprint implied by `spec`", with no
error return and no re-validation. -/
def consume_from_request (spec : RequestSpec) (h : HostState) : HostState :=
  { h with capacity := h.capacity - spec.footprint }

/-- The external collaborators of one scheduling call: the host-state
provider's sequence (`all_hosts`, as store indices), the filter chain
(receiving the current host list, the store, the group-host set and the
round index), the weigher chain, the configured
`scheduler_host_subset_size` (an integer option) and the random source
(one pre-drawn natural number per round). -/
structure SchedEnv where
  all_hosts : List Nat
  filter : List Nat → Store → List String → Nat → List Nat
  weigher : List Nat → Store → List Nat
  subset_size : Int
  rng : Nat → Nat

/-- The running state of the placement loop: hosts selected so far (store
indices, in assignment order), the mutable store, the group-host set, a
ghost trace recording each round's filtered host list, and the pending
exception (`none` while no exception has been raised). -/
structure LoopState where
  selected : List Nat
  store : Store
  groupHosts : List String
  trace : List (List Nat)
  err : Option PyErr
deriving Repr, DecidableEq

/-- The body of `_schedule`'s `for num in range(num_instances)` loop
(lines 143-173): filter the current host list (break when empty), weigh,
clamp the subset size, `random.choice` among the top entries, append the
chosen host, consume its resources in place, and conditionally add it to
the group-host set; the next round uses the filtered list as its base
list.  `rounds` counts the remaining iterations and `k` is the current
round index (`num`). -/
def scheduleLoop (env : SchedEnv) (spec : RequestSpec) :
    Nat → Nat → List Nat → LoopState → LoopState
  | 0, _, _, s => s
  | rounds + 1, k, hosts, s =>
    let hosts' := env.filter hosts s.store s.groupHosts k
    let s' := { s with trace := s.trace ++ [hosts'] }
    if hosts' = [] then s'
    else
      let weighed := env.weigher hosts' s'.store
      let sz := effectiveSubsetSize env.subset_size weighed.length
      match pychoice (env.rng k) (weighed.take sz) with
      | none => { s' with err := some PyErr.indexError }
      | some chosen =>
        let store' := listModify s'.store chosen (consume_from_request spec)
        let g' := if spec.group_updated then
            insertStr ((store'.getD chosen default).host) s'.groupHosts
          else s'.groupHosts
        scheduleLoop env spec rounds (k + 1) hosts'
          { selected := s'.selected ++ [chosen], store := store',
            groupHosts := g', trace := s'.trace, err := s'.err }

/-- `FilterScheduler._schedule` (lines 110-173): fetches the host
sequence once, initialises the group-host set from the request's
`filter_properties`, and runs the per-instance loop. -/
def schedule (env : SchedEnv) (spec : RequestSpec) (store : Store) : LoopState :=
  scheduleLoop env spec spec.num_instances 0 env.all_hosts
    { selected := [], store := store, groupHosts := spec.group_hosts,
      trace := [], err := none }

/-- The failure-path compensation of `select_destinations` (lines 84-85):
`for host in selected_hosts: host.obj.updated = None`. -/
def invalidateAll (st : Store) (ids : List Nat) : Store :=
  ids.foldl (fun s i => listModify s i (fun h => { h with updated := none })) st

/-- What one call to `select_destinations` produces: the lifecycle events
emitted to the notifier, the returned value or raised exception, and the
final host-state pool. -/
structure CallResult where
  events : List String
  result : Except PyErr (List Destination)
  store : Store
deriving Repr

/-- `FilterScheduler.select_destinations` (lines 61-104): emit the start
event, run `_schedule`; if it raised, the exception propagates; if the
request could not be fulfilled (`len(selected_hosts) < num_instances`),
invalidate the `updated` marker of every selected host and raise
`NoValidHost` with a generic reason; otherwise build the destination
dicts in assignment order, emit the end event and return them. -/
def select_destinations (env : SchedEnv) (spec : RequestSpec) (store : Store) : CallResult :=
  let events := ["scheduler.select_destinations.start"]
  let num_instances := spec.num_instances
  let out := schedule env spec store
  match out.err with
  | some e => { events := events, result := Except.error e, store := out.store }
  | none =>
    if out.selected.length < num_instances then
      let store' := invalidateAll out.store out.selected
      { events := events,
        result := Except.error (PyErr.noValidHost "There are not enough hosts available."),
        store := store' }
    else
      let dests := out.selected.map (fun i =>
        let h := out.store.getD i default
        { host := h.host, nodename := h.nodename, limits := h.limits : Destination })
      { events := events ++ ["scheduler.select_destinations.end"],
        result := Except.ok dests, store := out.store }

/-! ### Helper lemmas about the building blocks -/

theorem effectiveSubsetSize_pos (c : Int) (n : Nat) : 1 ≤ effectiveSubsetSize c n := by
  simp only [effectiveSubsetSize]
  split_ifs <;> omega

theorem pychoice_some_of_ne_nil (r : Nat) (l : List Nat) (h : l ≠ []) :
    ∃ x, pychoice r l = some x := by
  have hlen : 0 < l.length := List.length_pos.mpr h
  have hlt : r % l.length < l.length := Nat.mod_lt _ hlen
  exact ⟨l.get ⟨r % l.length, hlt⟩, List.get?_eq_get hlt⟩

theorem pychoice_mem {r : Nat} {l : List Nat} {x : Nat} (h : pychoice r l = some x) :
    x ∈ l := List.get?_mem h

theorem take_effectiveSubsetSize_ne_nil (c : Int) (l : List Nat) (h : l ≠ []) :
    l.take (effectiveSubsetSize c l.length) ≠ [] := by
  obtain ⟨m, hm⟩ : ∃ m, effectiveSubsetSize c l.length = m + 1 :=
    Nat.exists_eq_succ_of_ne_zero (by have := effectiveSubsetSize_pos c l.length; omega)
  obtain ⟨a, t, rfl⟩ : ∃ a t, l = a :: t := by
    cases l with
    | nil => exact absurd rfl h
    | cons a t => exact ⟨a, t, rfl⟩
  rw [hm]
  simp

theorem pychoice_take_one (r : Nat) (l : List Nat) :
    pychoice r (l.take (effectiveSubsetSize 1 l.length)) = l.head? := by
  cases l with
  | nil => rfl
  | cons a t =>
    have h1 : effectiveSubsetSize 1 (a :: t).length = 1 := by
      simp only [effectiveSubsetSize, List.length_cons]
      split_ifs <;> omega
    rw [h1]
    show pychoice r [a] = (a :: t).head?
    simp [pychoice, Nat.mod_one]

theorem listModify_length (l : List HostState) (i : Nat) (f : HostState → HostState) :
    (listModify l i f).length = l.length := by
  induction l generalizing i with
  | nil => rfl
  | cons h t ih =>
    cases i with
    | zero => rfl
    | succ n => simpa [listModify] using ih n

theorem listModify_get? (l : List HostState) (i j : Nat) (f : HostState → HostState) :
    (listModify l i f).get? j = if j = i then (l.get? j).map f else l.get? j := by
  induction l generalizing i j with
  | nil => simp [listModify]
  | cons h t ih =>
    cases i with
    | zero =>
      cases j with
      | zero => simp [listModify]
      | succ m => simp [listModify]
    | succ n =>
      cases j with
      | zero => simp [listModify]
      | succ m =>
        simp only [listModify, List.get?]
        rw [ih n m]
        by_cases hmn : m = n <;> simp [hmn]

theorem invalidateAll_get?_not_mem (ids : List Nat) (st : Store) (i : Nat) (h : i ∉ ids) :
    (invalidateAll st ids).get? i = st.get? i := by
  induction ids generalizing st with
  | nil => rfl
  | cons j rest ih =>
    have hij : i ≠ j := fun he => h (he ▸ List.mem_cons_self j rest)
    have hrest : i ∉ rest := fun hm => h (List.mem_cons_of_mem j hm)
    show (invalidateAll (listModify st j _) rest).get? i = st.get? i
    rw [ih _ hrest, listModify_get?]
    simp [hij]

theorem invalidateAll_updated (ids : List Nat) (st : Store) (i : Nat) (h : i ∈ ids) :
    ∀ hs, (invalidateAll st ids).get? i = some hs → hs.updated = none := by
  induction ids generalizing st with
  | nil => cases h
  | cons j rest ih =>
    intro hs hget
    by_cases hrest : i ∈ rest
    · exact ih _ hrest hs hget
    · have hij : i = j := by
        rcases List.mem_cons.mp h with h' | h'
        · exact h'
        · exact absurd h' hrest
      subst hij
      rw [show invalidateAll st (i :: rest) =
            invalidateAll (listModify st i (fun h => { h with updated := none })) rest from rfl,
          invalidateAll_get?_not_mem _ _ _ hrest, listModify_get?] at hget
      simp only [if_pos rfl] at hget
      rcases Option.map_eq_some'.mp hget with ⟨h0, _, rfl⟩
      rfl

/-! ### Invariants of the placement loop -/

theorem scheduleLoop_selected_le (env : SchedEnv) (spec : RequestSpec) :
    ∀ (r k : Nat) (hosts : List Nat) (s : LoopState),
      (scheduleLoop env spec r k hosts s).selected.length ≤ s.selected.length + r := by
  intro r
  induction r with
  | zero => intro k hosts s; simp [scheduleLoop]
  | succ n ih =>
    intro k hosts s
    simp only [scheduleLoop]
    split
    · simp
    · split
      · simp
      · calc (scheduleLoop env spec n (k + 1) _ _).selected.length
            ≤ (s.selected ++ [_]).length + n := ih _ _ _
          _ ≤ s.selected.length + (n + 1) := by simp; omega

theorem scheduleLoop_err_eq (env : SchedEnv) (spec : RequestSpec)
    (hw : ∀ hs st, hs ≠ [] → env.weigher hs st ≠ []) :
    ∀ (r k : Nat) (hosts : List Nat) (s : LoopState),
      (scheduleLoop env spec r k hosts s).err = s.err := by
  intro r
  induction r with
  | zero => intro k hosts s; simp [scheduleLoop]
  | succ n ih =>
    intro k hosts s
    simp only [scheduleLoop]
    split
    · simp
    · rename_i hf
      split
      · rename_i hpc
        have hwne : env.weigher (env.filter hosts s.store s.groupHosts k) s.store ≠ [] :=
          hw _ _ hf
        obtain ⟨x, hx⟩ := pychoice_some_of_ne_nil (env.rng k) _
          (take_effectiveSubsetSize_ne_nil env.subset_size _ hwne)
        rw [hpc] at hx
        cases hx
      · rw [ih]

theorem scheduleLoop_break (env : SchedEnv) (spec : RequestSpec)
    (r k : Nat) (hosts : List Nat) (s : LoopState)
    (hf : env.filter hosts s.store s.groupHosts k = []) :
    scheduleLoop env spec (r + 1) k hosts s = { s with trace := s.trace ++ [[]] } := by
  simp [scheduleLoop, hf]

theorem scheduleLoop_exact (env : SchedEnv) (spec : RequestSpec)
    (hfil : ∀ hs st g k, env.filter hs st g k = hs)
    (hw : ∀ hs st, hs ≠ [] → env.weigher hs st ≠ []) :
    ∀ (r k : Nat) (hosts : List Nat) (s : LoopState), hosts ≠ [] →
      (scheduleLoop env spec r k hosts s).selected.length = s.selected.length + r := by
  intro r
  induction r with
  | zero => intro k hosts s _; simp [scheduleLoop]
  | succ n ih =>
    intro k hosts s hne
    simp only [scheduleLoop, hfil]
    rw [if_neg hne]
    have hwne : env.weigher hosts s.store ≠ [] := hw _ _ hne
    obtain ⟨x, hx⟩ := pychoice_some_of_ne_nil (env.rng k) _
      (take_effectiveSubsetSize_ne_nil env.subset_size _ hwne)
    rw [hx]
    rw [ih _ _ _ hne]
    simp
    omega

theorem scheduleLoop_trace (env : SchedEnv) (spec : RequestSpec)
    (hsub : ∀ hs st g k, (env.filter hs st g k).Sublist hs) :
    ∀ (r k : Nat) (hosts : List Nat) (s : LoopState),
      ∃ t, (scheduleLoop env spec r k hosts s).trace = s.trace ++ t ∧
        List.Chain' (fun a b => b.Sublist a) (hosts :: t) := by
  intro r
  induction r with
  | zero =>
    intro k hosts s
    exact ⟨[], by simp [scheduleLoop], List.chain'_singleton hosts⟩
  | succ n ih =>
    intro k hosts s
    simp only [scheduleLoop]
    split
    · rename_i hf
      refine ⟨[env.filter hosts s.store s.groupHosts k], by simp, ?_⟩
      exact List.chain'_cons.mpr ⟨hsub _ _ _ _, List.chain'_singleton _⟩
    · split
      · refine ⟨[env.filter hosts s.store s.groupHosts k], by simp, ?_⟩
        exact List.chain'_cons.mpr ⟨hsub _ _ _ _, List.chain'_singleton _⟩
      · rename_i chosen hpc
        obtain ⟨t', htr, hch⟩ := ih (k + 1) (env.filter hosts s.store s.groupHosts k)
          { selected := s.selected ++ [chosen],
            store := listModify s.store chosen (consume_from_request spec),
            groupHosts := if spec.group_updated then
                insertStr (((listModify s.store chosen
                    (consume_from_request spec)).getD chosen default).host) s.groupHosts
              else s.groupHosts,
            trace := s.trace ++ [env.filter hosts s.store s.groupHosts k], err := s.err }
        refine ⟨env.filter hosts s.store s.groupHosts k :: t', ?_, ?_⟩
        · rw [htr]; simp
        · exact List.chain'_cons.mpr ⟨hsub _ _ _ _, hch⟩

theorem scheduleLoop_rng_eq (env : SchedEnv) (spec : RequestSpec)
    (h1 : env.subset_size = 1) (f g : Nat → Nat) :
    ∀ (r k : Nat) (hosts : List Nat) (s : LoopState),
      scheduleLoop { env with rng := f } spec r k hosts s =
      scheduleLoop { env with rng := g } spec r k hosts s := by
  have hpt : ∀ (r : Nat) (l : List Nat),
      pychoice r (l.take (effectiveSubsetSize env.subset_size l.length)) = l.head? := by
    intro r l
    rw [h1]
    exact pychoice_take_one r l
  intro r
  induction r with
  | zero => intro k hosts s; rfl
  | succ n ih =>
    intro k hosts s
    simp only [scheduleLoop]
    split
    · rfl
    · rw [hpt, hpt]
      cases hh : (env.weigher (env.filter hosts s.store s.groupHosts k)
          s.store).head? with
      | none => rfl
      | some chosen => exact ih _ _ _

theorem schedule_selected_le (env : SchedEnv) (spec : RequestSpec) (store : Store) :
    (schedule env spec store).selected.length ≤ spec.num_instances := by
  have h := scheduleLoop_selected_le env spec spec.num_instances 0 env.all_hosts
    { selected := [], store := store, groupHosts := spec.group_hosts,
      trace := [], err := none }
  simpa [schedule] using h

theorem schedule_err_none (env : SchedEnv) (spec : RequestSpec) (store : Store)
    (hw : ∀ hs st, hs ≠ [] → env.weigher hs st ≠ []) :
    (schedule env spec store).err = none := by
  have h := scheduleLoop_err_eq env spec hw spec.num_instances 0 env.all_hosts
    { selected := [], store := store, groupHosts := spec.group_hosts,
      trace := [], err := none }
  simpa [schedule] using h

/-! ### Concrete test fixtures -/

/-- Two hosts, the identity filter (every host passes every round), the
identity weigher (host 0 always ranked first), subset size 1. -/
def envID : SchedEnv :=
  { all_hosts := [0, 1],
    filter := fun hs _ _ _ => hs,
    weigher := fun hs _ => hs,
    subset_size := 1,
    rng := fun _ => 0 }

/-- Two-host store: `h0` with capacity 100, `h1` with capacity 80, both
with a fresh `updated` marker. -/
def store2 : Store :=
  [⟨"h0", "n0", 0, some 1, 100⟩, ⟨"h1", "n1", 0, some 1, 80⟩]

/-- Like `envID` but with a weigher that returns the empty list even for
a non-empty filtered list. -/
def envEmptyWeigher : SchedEnv :=
  { envID with weigher := fun _ _ => [] }

/-- Like `envID` but the filter chain empties the host list from round 1
onwards, so a batch of 2 selects only 1 host. -/
def envRound0Only : SchedEnv :=
  { envID with filter := fun hs _ _ k => if k = 0 then hs else [] }

/-- Like `envID` but the filter chain always returns the empty list. -/
def envEmptyFilter : SchedEnv :=
  { envID with filter := fun _ _ _ _ => [] }

/-! ### The claims -/

/-- C3: in every round, the effective subset size equals
`clamp(configured, 1, len(weighed))`: a configured size of 0 or negative
behaves identically to size 1, a configured size greater than
`len(weighed)` behaves identically to `len(weighed)`, and the host chosen
by `random.choice` is always among the top effective-size entries of the
weighed list. -/
theorem spec_C3 (c : Int) (w : List Nat) (r : Nat) (h : 1 ≤ w.length) :
    ((effectiveSubsetSize c w.length : Int) = max 1 (min c (w.length : Int))) ∧
    (c ≤ 0 → effectiveSubsetSize c w.length = effectiveSubsetSize 1 w.length) ∧
    ((w.length : Int) < c → effectiveSubsetSize c w.length = w.length) ∧
    (∀ x, pychoice r (w.take (effectiveSubsetSize c w.length)) = some x →
      x ∈ w.take (effectiveSubsetSize c w.length)) := by
  refine ⟨?_, fun hc => ?_, fun hc => ?_, fun x hx => pychoice_mem hx⟩ <;>
    simp only [effectiveSubsetSize] <;> split_ifs <;> omega

/-- Witness for C3 at `c = 0`, `w = [5, 7]`, `r = 3`. -/
theorem spec_C3_witness :
    1 ≤ ([5, 7] : List Nat).length ∧
    (((effectiveSubsetSize 0 ([5, 7] : List Nat).length : Int) =
        max 1 (min 0 (([5, 7] : List Nat).length : Int))) ∧
    ((0 : Int) ≤ 0 →
      effectiveSubsetSize 0 ([5, 7] : List Nat).length =
        effectiveSubsetSize 1 ([5, 7] : List Nat).length) ∧
    ((([5, 7] : List Nat).length : Int) < 0 →
      effectiveSubsetSize 0 ([5, 7] : List Nat).length = ([5, 7] : List Nat).length) ∧
    (∀ x, pychoice 3 (([5, 7] : List Nat).take
        (effectiveSubsetSize 0 ([5, 7] : List Nat).length)) = some x →
      x ∈ ([5, 7] : List Nat).take (effectiveSubsetSize 0 ([5, 7] : List Nat).length))) :=
  ⟨by decide, spec_C3 0 [5, 7] 3 (by decide)⟩

/-- C4 fails as stated: with a weigher chain that returns an empty
sequence for the non-empty filtered list `[0]`, the loop's
`random.choice(weighed_hosts[0:1])` raises `IndexError`, so `_schedule`
does raise an error of its own. -/
theorem spec_C4_counterexample :
    (schedule envEmptyWeigher ⟨1, 1, false, []⟩ store2).err = some PyErr.indexError ∧
    (select_destinations envEmptyWeigher ⟨1, 1, false, []⟩ store2).result =
      Except.error PyErr.indexError := by
  exact ⟨rfl, rfl⟩

/-- C4 (amended): the placement loop `_schedule` raises no error of its
own — it returns a possibly-short list — for every result of the external
filter chain, provided the weigher chain returns a non-empty sequence
whenever it is given a non-empty filtered list; with a weigher returning
an empty sequence for a non-empty filtered list, `random.choice` raises
`IndexError`. -/
theorem spec_C4 (env : SchedEnv) (spec : RequestSpec) (store : Store)
    (hw : ∀ hs st, hs ≠ [] → env.weigher hs st ≠ []) :
    (schedule env spec store).err = none :=
  schedule_err_none env spec store hw

/-- Witness for C4 at `envID` (identity weigher). -/
theorem spec_C4_witness :
    (∀ hs st, hs ≠ [] → envID.weigher hs st ≠ []) ∧
    (schedule envID ⟨5, 10, false, []⟩ store2).err = none :=
  ⟨fun _ _ h => h, spec_C4 envID ⟨5, 10, false, []⟩ store2 (fun _ _ h => h)⟩

/-- C7: when the filter chain returns a subset (sublist) of its input,
each round's filtered host list is drawn from the previous round's
filtered list — the recorded trace forms a chain of sublists starting
from the initial snapshot — so the filtered host list size is
non-increasing across rounds. -/
theorem spec_C7 (env : SchedEnv) (spec : RequestSpec) (store : Store)
    (hsub : ∀ hs st g k, (env.filter hs st g k).Sublist hs) :
    List.Chain' (fun a b => b.Sublist a)
      (env.all_hosts :: (schedule env spec store).trace) ∧
    List.Chain' (fun a b : List Nat => b.length ≤ a.length)
      (env.all_hosts :: (schedule env spec store).trace) := by
  obtain ⟨t, htr, hch⟩ := scheduleLoop_trace env spec hsub spec.num_instances 0 env.all_hosts
    { selected := [], store := store, groupHosts := spec.group_hosts,
      trace := [], err := none }
  have htr' : (schedule env spec store).trace = t := by simpa [schedule] using htr
  rw [htr']
  exact ⟨hch, hch.imp (fun a b h => h.length_le)⟩

/-- Witness for C7 at `envID` (identity filter, a sublist of its input). -/
theorem spec_C7_witness :
    (∀ hs st g k, (envID.filter hs st g k).Sublist hs) ∧
    (List.Chain' (fun a b => b.Sublist a)
      (envID.all_hosts :: (schedule envID ⟨2, 10, false, []⟩ store2).trace) ∧
    List.Chain' (fun a b : List Nat => b.length ≤ a.length)
      (envID.all_hosts :: (schedule envID ⟨2, 10, false, []⟩ store2).trace)) :=
  ⟨fun hs _ _ _ => List.Sublist.refl hs,
   spec_C7 envID ⟨2, 10, false, []⟩ store2 (fun hs _ _ _ => List.Sublist.refl hs)⟩

/-- C8: with subset size 1 the pick of every round is the first
(highest-weighed) host of the weighed list, so the placement loop's
outcome does not depend on the random source at all: two runs with the
same request, host set and store produce the same selection. -/
theorem spec_C8 (env : SchedEnv) (spec : RequestSpec) (store : Store)
    (h1 : env.subset_size = 1) :
    (∀ f g : Nat → Nat,
      schedule { env with rng := f } spec store =
        schedule { env with rng := g } spec store) ∧
    (∀ (w : List Nat) (r : Nat),
      pychoice r (w.take (effectiveSubsetSize env.subset_size w.length)) = w.head?) := by
  constructor
  · intro f g
    exact scheduleLoop_rng_eq env spec h1 f g spec.num_instances 0 env.all_hosts _
  · intro w r
    rw [h1]
    exact pychoice_take_one r w

/-- Witness for C8 at `envID` (subset size 1). -/
theorem spec_C8_witness :
    envID.subset_size = 1 ∧
    ((∀ f g : Nat → Nat,
      schedule { envID with rng := f } ⟨2, 10, false, []⟩ store2 =
        schedule { envID with rng := g } ⟨2, 10, false, []⟩ store2) ∧
    (∀ (w : List Nat) (r : Nat),
      pychoice r (w.take (effectiveSubsetSize envID.subset_size w.length)) = w.head?)) :=
  ⟨rfl, spec_C8 envID ⟨2, 10, false, []⟩ store2 rfl⟩

/-- C9: nothing removes a chosen host from the candidate list: with
subset size 1 and a weigher that keeps host 0 ranked first after each
consumption, a batch of 3 selects host 0 in all three rounds — the
selected list holds the same host three times and its capacity is debited
once per round (100 − 3·10 = 70), while host 1 is untouched. -/
theorem spec_C9 :
    (schedule envID ⟨3, 10, false, []⟩ store2).selected = [0, 0, 0] ∧
    ¬ (schedule envID ⟨3, 10, false, []⟩ store2).selected.Nodup ∧
    ((schedule envID ⟨3, 10, false, []⟩ store2).store.getD 0 default).capacity = 70 ∧
    ((schedule envID ⟨3, 10, false, []⟩ store2).store.getD 1 default).capacity = 80 := by
  exact ⟨rfl, by decide, rfl, rfl⟩

/-- C10: a request for zero instances does not fail: the loop runs zero
rounds, the shortfall check `0 < 0` is false, and the call returns the
empty destination list with both lifecycle events emitted and the store
untouched. -/
theorem spec_C10 (env : SchedEnv) (spec : RequestSpec) (store : Store)
    (h0 : spec.num_instances = 0) :
    select_destinations env spec store =
      { events := ["scheduler.select_destinations.start",
                   "scheduler.select_destinations.end"],
        result := Except.ok [], store := store } := by
  simp [select_destinations, schedule, h0, scheduleLoop]

/-- Witness for C10 at `envID` and a zero-instance request. -/
theorem spec_C10_witness :
    (⟨0, 10, false, []⟩ : RequestSpec).num_instances = 0 ∧
    select_destinations envID ⟨0, 10, false, []⟩ store2 =
      { events := ["scheduler.select_destinations.start",
                   "scheduler.select_destinations.end"],
        result := Except.ok [], store := store2 } :=
  ⟨rfl, spec_C10 envID ⟨0, 10, false, []⟩ store2 rfl⟩

/-- C1: under the weigher-chain contract (an ordering of a non-empty
filtered list is non-empty), every call to `select_destinations` either
returns the full list of exactly `num_instances` destinations, built from
the selected hosts in assignment order, or raises the single
`NoValidHost` error; a partial destination list is never returned. -/
theorem spec_C1 (env : SchedEnv) (spec : RequestSpec) (store : Store)
    (hw : ∀ hs st, hs ≠ [] → env.weigher hs st ≠ []) :
    (∃ d, (select_destinations env spec store).result = Except.ok d ∧
        d.length = spec.num_instances ∧
        d = (schedule env spec store).selected.map (fun i =>
          let h := (schedule env spec store).store.getD i default
          ({ host := h.host, nodename := h.nodename, limits := h.limits } : Destination))) ∨
    (select_destinations env spec store).result =
      Except.error (PyErr.noValidHost "There are not enough hosts available.") := by
  have herr := schedule_err_none env spec store hw
  by_cases hlt : (schedule env spec store).selected.length < spec.num_instances
  · right
    simp [select_destinations, herr, hlt]
  · left
    have hle := schedule_selected_le env spec store
    have heq : (schedule env spec store).selected.length = spec.num_instances := by omega
    refine ⟨_, ?_, ?_, rfl⟩
    · simp [select_destinations, herr, hlt]
    · simp [heq]

/-- Witness for C1 at `envID` (identity weigher), a 2-instance batch. -/
theorem spec_C1_witness :
    (∀ hs st, hs ≠ [] → envID.weigher hs st ≠ []) ∧
    ((∃ d, (select_destinations envID ⟨2, 10, false, []⟩ store2).result = Except.ok d ∧
        d.length = (⟨2, 10, false, []⟩ : RequestSpec).num_instances ∧
        d = (schedule envID ⟨2, 10, false, []⟩ store2).selected.map (fun i =>
          let h := (schedule envID ⟨2, 10, false, []⟩ store2).store.getD i default
          ({ host := h.host, nodename := h.nodename, limits := h.limits } : Destination))) ∨
    (select_destinations envID ⟨2, 10, false, []⟩ store2).result =
      Except.error (PyErr.noValidHost "There are not enough hosts available.")) :=
  ⟨fun _ _ h => h, spec_C1 envID ⟨2, 10, false, []⟩ store2 (fun _ _ h => h)⟩

/-- C2: when the placement loop returns (raises nothing) with fewer
selected hosts than `num_instances`, `select_destinations` invalidates
the `updated` marker of every selected host before raising `NoValidHost`:
in the final store, every selected index carries `updated = none`. -/
theorem spec_C2 (env : SchedEnv) (spec : RequestSpec) (store : Store)
    (h1 : (schedule env spec store).err = none)
    (h2 : (schedule env spec store).selected.length < spec.num_instances) :
    (select_destinations env spec store).result =
      Except.error (PyErr.noValidHost "There are not enough hosts available.") ∧
    ∀ i ∈ (schedule env spec store).selected, ∀ hs,
      (select_destinations env spec store).store.get? i = some hs → hs.updated = none := by
  have hsd : select_destinations env spec store =
      { events := ["scheduler.select_destinations.start"],
        result := Except.error (PyErr.noValidHost "There are not enough hosts available."),
        store := invalidateAll (schedule env spec store).store
          (schedule env spec store).selected } := by
    simp [select_destinations, h1, h2]
  rw [hsd]
  exact ⟨rfl, fun i hi hs hget => invalidateAll_updated _ _ _ hi hs hget⟩

/-- Witness for C2: 2 instances requested, the filter chain empties from
round 1 on, so only one host is selected and its marker is cleared. -/
theorem spec_C2_witness :
    (schedule envRound0Only ⟨2, 10, false, []⟩ store2).err = none ∧
    (schedule envRound0Only ⟨2, 10, false, []⟩ store2).selected.length <
      (⟨2, 10, false, []⟩ : RequestSpec).num_instances ∧
    ((select_destinations envRound0Only ⟨2, 10, false, []⟩ store2).result =
      Except.error (PyErr.noValidHost "There are not enough hosts available.") ∧
    ∀ i ∈ (schedule envRound0Only ⟨2, 10, false, []⟩ store2).selected, ∀ hs,
      (select_destinations envRound0Only ⟨2, 10, false, []⟩ store2).store.get? i = some hs →
        hs.updated = none) :=
  ⟨by decide, by decide,
   spec_C2 envRound0Only ⟨2, 10, false, []⟩ store2 (by decide) (by decide)⟩

/-- C5 fails as stated: with 2 hosts that pass every round's filter (the
identity filter), a batch of 2 with subset size 1 and a weigher that
keeps host 0 ranked first selects host 0 twice — the result has 2
entries but only 1 distinct host. -/
theorem spec_C5_counterexample :
    (∀ hs st g k, envID.filter hs st g k = hs) ∧
    (⟨2, 10, false, []⟩ : RequestSpec).num_instances ≤ envID.all_hosts.length ∧
    (schedule envID ⟨2, 10, false, []⟩ store2).selected = [0, 0] ∧
    ¬ (schedule envID ⟨2, 10, false, []⟩ store2).selected.Nodup ∧
    (select_destinations envID ⟨2, 10, false, []⟩ store2).result =
      Except.ok [⟨"h0", "n0", 0⟩, ⟨"h0", "n0", 0⟩] :=
  ⟨fun _ _ _ _ => rfl, by decide, rfl, by decide, rfl⟩

/-- C5 (amended): for a batch of `K` instances against at least `K`
hosts that pass every round's filter, with a weigher that orders (and in
particular keeps non-empty) its input, the result has exactly `K`
entries — but the entries need not be distinct hosts: the same host may
be selected in several rounds. -/
theorem spec_C5 (env : SchedEnv) (spec : RequestSpec) (store : Store)
    (hfil : ∀ hs st g k, env.filter hs st g k = hs)
    (hw : ∀ hs st, hs ≠ [] → env.weigher hs st ≠ [])
    (hK : spec.num_instances ≤ env.all_hosts.length) :
    (schedule env spec store).selected.length = spec.num_instances := by
  cases hn : spec.num_instances with
  | zero => simp [schedule, hn, scheduleLoop]
  | succ m =>
    have hne : env.all_hosts ≠ [] := by
      intro hnil
      have hz : env.all_hosts.length = 0 := by rw [hnil]; rfl
      omega
    have h := scheduleLoop_exact env spec hfil hw spec.num_instances 0 env.all_hosts
      { selected := [], store := store, groupHosts := spec.group_hosts,
        trace := [], err := none } hne
    rw [← hn]
    simpa [schedule] using h

/-- Witness for C5 at `envID`: a 2-instance batch against 2 hosts. -/
theorem spec_C5_witness :
    (∀ hs st g k, envID.filter hs st g k = hs) ∧
    (∀ hs st, hs ≠ [] → envID.weigher hs st ≠ []) ∧
    (⟨2, 10, false, []⟩ : RequestSpec).num_instances ≤ envID.all_hosts.length ∧
    (schedule envID ⟨2, 10, false, []⟩ store2).selected.length =
      (⟨2, 10, false, []⟩ : RequestSpec).num_instances :=
  ⟨fun _ _ _ _ => rfl, fun _ _ h => h, by decide,
   spec_C5 envID ⟨2, 10, false, []⟩ store2 (fun _ _ _ _ => rfl) (fun _ _ h => h) (by decide)⟩

/-- C6: the selected list never exceeds `num_instances`, and as soon as a
round's filter chain returns an empty host list the loop stops
immediately, returning the state unchanged apart from recording the empty
filtered list — in particular exactly the hosts selected in earlier
rounds. -/
theorem spec_C6 (env : SchedEnv) (spec : RequestSpec) (store : Store)
    (r k : Nat) (hosts : List Nat) (s : LoopState)
    (hf : env.filter hosts s.store s.groupHosts k = []) :
    (schedule env spec store).selected.length ≤ spec.num_instances ∧
    scheduleLoop env spec (r + 1) k hosts s = { s with trace := s.trace ++ [[]] } :=
  ⟨schedule_selected_le env spec store, scheduleLoop_break env spec r k hosts s hf⟩

/-- Witness for C6 at a filter chain that always returns the empty list. -/
theorem spec_C6_witness :
    (envEmptyFilter.filter [0, 1] (⟨[], store2, [], [], none⟩ : LoopState).store
        (⟨[], store2, [], [], none⟩ : LoopState).groupHosts 0 = []) ∧
    ((schedule envEmptyFilter ⟨2, 10, false, []⟩ store2).selected.length ≤
        (⟨2, 10, false, []⟩ : RequestSpec).num_instances ∧
      scheduleLoop envEmptyFilter ⟨2, 10, false, []⟩ (0 + 1) 0 [0, 1]
          ⟨[], store2, [], [], none⟩ =
        { (⟨[], store2, [], [], none⟩ : LoopState) with
            trace := (⟨[], store2, [], [], none⟩ : LoopState).trace ++ [[]] }) :=
  ⟨rfl, spec_C6 envEmptyFilter ⟨2, 10, false, []⟩ store2 0 0 [0, 1]
    ⟨[], store2, [], [], none⟩ rfl⟩
